import Mathlib

/-!
Verification development for the lucy-ui layout engine.

The definitions below are a shallow embedding of the Python sources:
  * src/lucyui/core/models.py      (Size, SizeBehavior, ConstrainedBoxModel)
  * src/lucyui/layouts/solver.py   (solve_size_constraints)
  * src/lucyui/layouts/stack.py    (Stack._realign)
  * src/lucyui/layouts/layout.py   (Layout.add_widget / remove_widget)
  * src/lucyui/widgets/widget.py   (focus / unfocus, double click handling)
  * src/src/textinput.py           (TextInput.update, TEXTINPUT branch)

Python floats are modelled as rationals; EPSILON is the literal 0.001 from
solver.py.  Sizes are indexed by an axis in Fin 2 (0 = width, 1 = height),
which encodes the valid-index precondition of Size.__getitem__.
-/

namespace LucyUI

/-- SizeBehavior from src/lucyui/core/models.py. -/
inductive SizeBehavior where
  | FIXED
  | GROW
  | SHRINK
  | FLEX
deriving DecidableEq, Repr

/-- Size from src/lucyui/core/models.py: 2D dimensions. -/
structure Size where
  width : ℚ
  height : ℚ
deriving DecidableEq, Repr

/-- Size.__getitem__ restricted to the valid indices 0 and 1. -/
def Size.get (s : Size) (axis : Fin 2) : ℚ :=
  if axis.val = 0 then s.width else s.height

/-- Size.__setitem__ restricted to the valid indices 0 and 1. -/
def Size.set (s : Size) (axis : Fin 2) (v : ℚ) : Size :=
  if axis.val = 0 then { s with width := v } else { s with height := v }

/-- A 2D position (pygame.Vector2), accessed by the same axis indices. -/
structure Vec2 where
  x : ℚ
  y : ℚ
deriving DecidableEq, Repr

def Vec2.get (p : Vec2) (axis : Fin 2) : ℚ :=
  if axis.val = 0 then p.x else p.y

def Vec2.set (p : Vec2) (axis : Fin 2) (v : ℚ) : Vec2 :=
  if axis.val = 0 then { p with x := v } else { p with y := v }

/-- The geometric state of a ConstrainedBoxModel together with the
widget-level fields the layout code reads (size behaviors, visibility). -/
structure Widget where
  preferred_size : Size
  current_size : Size
  relative_position : Vec2
  maximum_size : Size
  minimum_size : Size
  horizontal_behavior : SizeBehavior
  vertical_behavior : SizeBehavior
  is_visible : Bool
deriving DecidableEq, Repr

/-- widget.size_behavior[axis]. -/
def Widget.size_behavior (w : Widget) (axis : Fin 2) : SizeBehavior :=
  if axis.val = 0 then w.horizontal_behavior else w.vertical_behavior

/-- EPSILON = 0.001 from solver.py. -/
def EPSILON : ℚ := 1 / 1000

/-- Sum of preferred sizes on one axis (total_preferred in solver.py). -/
def sumPref (ws : List Widget) (axis : Fin 2) : ℚ :=
  (ws.map (fun w => w.preferred_size.get axis)).sum

/-- Sum of current sizes on one axis. -/
def sumCur (ws : List Widget) (axis : Fin 2) : ℚ :=
  (ws.map (fun w => w.current_size.get axis)).sum

/-- Grow-direction eligibility test (solver.py lines 42-44):
behavior is GROW or FLEX. -/
def growEligible (w : Widget) (axis : Fin 2) : Bool :=
  match w.size_behavior axis with
  | .GROW | .FLEX => true
  | _ => false

/-- Shrink-direction eligibility test (solver.py lines 51-53):
behavior is SHRINK or FLEX. -/
def shrinkEligible (w : Widget) (axis : Fin 2) : Bool :=
  match w.size_behavior axis with
  | .SHRINK | .FLEX => true
  | _ => false

/-- Eligibility for the direction chosen by the sign of the difference. -/
def eligibleFor (growing : Bool) (w : Widget) (axis : Fin 2) : Bool :=
  if growing then growEligible w axis else shrinkEligible w axis

/-- Result of updating one eligible widget inside the solver's inner
for-loop (solver.py lines 66-87): the updated widget, the amount of
`remaining` it used, whether it stays eligible, and whether the min/max
clamp actually changed its proposed size. -/
structure StepResult where
  widget : Widget
  used : ℚ
  keep : Bool
  clamped : Bool

/-- One eligible widget's update in an iteration (solver.py lines 66-87).
`growing` is the direction marker (`behavior` in the source): +1 direction
when true, -1 when false. -/
def stepBox (growing : Bool) (axis : Fin 2) (share : ℚ) (w : Widget) : StepResult :=
  let cur := w.current_size.get axis
  let dir : ℚ := if growing then 1 else -1
  let proposed0 := cur + dir * share
  -- Clamp to size limits: the max clamp only in grow direction and only
  -- when the maximum is set (> 0 sentinel); the min clamp always in
  -- shrink direction.
  let proposed1 :=
    if growing ∧ w.maximum_size.get axis > 0 then min proposed0 (w.maximum_size.get axis)
    else proposed0
  let proposed :=
    if growing then proposed1 else max proposed1 (w.minimum_size.get axis)
  let used := |proposed - cur|
  let w' := { w with current_size := w.current_size.set axis proposed }
  -- Eligibility for the next iteration (solver.py lines 84-87): the test
  -- reads the committed current size, which equals `proposed`.
  let keep :=
    if growing then decide (proposed < w.maximum_size.get axis)
    else decide (proposed > w.minimum_size.get axis)
  let clamped := decide (proposed ≠ proposed0)
  ⟨w', used, keep, clamped⟩

/-!
The Python solver keeps `eligible` as a list of references into `widgets`
and mutates the shared objects.  Each iteration updates every eligible
widget independently of the others (the share is fixed before the inner
loop and `remaining` is only re-read by the outer loop), and only the
COUNT of eligible widgets enters the arithmetic, so eligibility is
represented here as a per-widget flag paired with the widget.
-/

/-- One iteration's inner for-loop (solver.py lines 66-87) over the
widget/eligibility pairs: returns the updated pairs, the total `used`
subtracted from `remaining`, and whether any clamp changed a value. -/
def solvePass (growing : Bool) (axis : Fin 2) (share : ℚ) :
    List (Widget × Bool) → List (Widget × Bool) × ℚ × Bool
  | [] => ([], 0, false)
  | p :: rest =>
    let r := solvePass growing axis share rest
    if p.2 then
      let s := stepBox growing axis share p.1
      ((s.widget, s.keep) :: r.1, s.used + r.2.1, s.clamped || r.2.2)
    else
      ((p.1, false) :: r.1, r.2.1, r.2.2)

/-- Pointwise form of one pass on one pair. -/
def passPair (growing : Bool) (axis : Fin 2) (share : ℚ) (p : Widget × Bool) :
    Widget × Bool :=
  if p.2 then
    let s := stepBox growing axis share p.1
    (s.widget, s.keep)
  else (p.1, false)

/-- Pointwise `used` contribution of one pair. -/
def passUsed (growing : Bool) (axis : Fin 2) (share : ℚ) (p : Widget × Bool) : ℚ :=
  if p.2 then (stepBox growing axis share p.1).used else 0

/-- Pointwise clamped flag of one pair. -/
def passClamped (growing : Bool) (axis : Fin 2) (share : ℚ) (p : Widget × Bool) : Bool :=
  if p.2 then (stepBox growing axis share p.1).clamped else false

/-- Result record of the solver: the final widget list, the iteration
count (the Python return value), and whether any clamp changed a
proposed value during the whole solve (instrumentation used to state the
conservation property). -/
structure SolveResult where
  widgets : List Widget
  iterations : Nat
  clamped : Bool
deriving Repr

/-- The solver's while loop (solver.py lines 60-89).  The loop terminates
within (number of widgets + 1) iterations: an iteration in which no clamp
changes a value uses exactly `remaining` in total and zeroes it, and an
iteration in which some clamp fires removes that widget from the eligible
set; the fuel below is therefore never exhausted before the loop's own
exit condition fires. -/
def solveLoop (growing : Bool) (axis : Fin 2) :
    Nat → List (Widget × Bool) → ℚ → Nat → Bool → SolveResult
  | 0, st, _, iters, cl => ⟨st.map Prod.fst, iters, cl⟩
  | fuel + 1, st, remaining, iters, cl =>
    let n := st.countP (fun p => p.2)
    if EPSILON < remaining ∧ n ≠ 0 then
      let share := remaining / (n : ℚ)
      let r := solvePass growing axis share st
      solveLoop growing axis fuel r.1 (remaining - r.2.1) (iters + 1) (cl || r.2.2)
    else ⟨st.map Prod.fst, iters, cl⟩

/-- solve_size_constraints from solver.py. -/
def solve_size_constraints (widgets : List Widget) (size : ℚ) (axis : Fin 2) :
    SolveResult :=
  let total_preferred := sumPref widgets axis
  let diff := size - total_preferred
  if diff = 0 then ⟨widgets, 0, false⟩
  else if diff > 0 then
    solveLoop true axis (widgets.length + 1)
      (widgets.map (fun w => (w, growEligible w axis))) |diff| 0 false
  else
    solveLoop false axis (widgets.length + 1)
      (widgets.map (fun w => (w, shrinkEligible w axis))) |diff| 0 false

/-! ## Stack layout (src/lucyui/layouts/stack.py) -/

/-- LayoutAlignment from src/lucyui/core/models.py. -/
inductive LayoutAlignment where
  | START
  | END
  | CENTER
deriving DecidableEq, Repr

/-- LayoutDistribution from src/lucyui/core/models.py. -/
inductive LayoutDistribution where
  | SPACE_BETWEEN
  | SPACE_AROUND
deriving DecidableEq, Repr

/-- The Stack fields read by _realign: the main-axis direction (as the
axis index StackDirection.value), alignments, distribution and the
stack's own current size. -/
structure StackCfg where
  direction : Fin 2
  main_alignment : LayoutAlignment
  cross_alignment : LayoutAlignment
  distribution : LayoutDistribution
  current_size : Size
deriving DecidableEq, Repr

/-- Sequential main-axis placement: used by the START branch (gap = 0,
starting at 0; stack.py lines 158-162) and by the CENTER branch's final
loop (stack.py lines 186-188), where the running offset advances by the
child's solved size plus the gap. -/
def placeSeq (axis : Fin 2) (gap : ℚ) : ℚ → List Widget → List Widget
  | _, [] => []
  | y, w :: rest =>
    { w with relative_position := w.relative_position.set axis y } ::
      placeSeq axis gap (y + w.current_size.get axis + gap) rest

/-- END placement's loop over the reversed child list (stack.py lines
152-156): accumulate sizes and place each child at (stack size - y). -/
def placeEndRev (axis : Fin 2) (avail : ℚ) : ℚ → List Widget → List Widget
  | _, [] => []
  | y, w :: rest =>
    let y2 := y + w.current_size.get axis
    { w with relative_position := w.relative_position.set axis (avail - y2) } ::
      placeEndRev axis avail y2 rest

/-- END placement (stack.py lines 152-156): iterate the children in
reverse, then restore the original order (the Python code mutates the
shared child objects, leaving the child list order unchanged). -/
def placeEnd (axis : Fin 2) (avail : ℚ) (vis : List Widget) : List Widget :=
  (placeEndRev axis avail 0 vis.reverse).reverse

/-- Main-axis placement (stack.py lines 152-188).  In the CENTER branch
the gap is computed as remaining / n BEFORE the `remaining <= 0` guard,
so a zero gap count raises ZeroDivisionError exactly as in Python. -/
def placeMain (cfg : StackCfg) (main : Fin 2) (vis : List Widget) :
    Except String (List Widget) :=
  match cfg.main_alignment with
  | .END => .ok (placeEnd main (cfg.current_size.get main) vis)
  | .START => .ok (placeSeq main 0 0 vis)
  | .CENTER =>
    let total_space := (vis.map (fun w => w.current_size.get main)).sum
    let remaining := cfg.current_size.get main - total_space
    let n : Int :=
      match cfg.distribution with
      | .SPACE_BETWEEN => (vis.length : Int) - 1
      | .SPACE_AROUND => (vis.length : Int) + 1
    if n = 0 then .error "ZeroDivisionError"
    else
      let gap : ℚ := remaining / (n : ℚ)
      let gap := if remaining ≤ 0 then 0 else gap
      let y0 : ℚ :=
        match cfg.distribution with
        | .SPACE_BETWEEN => 0
        | .SPACE_AROUND => gap
      .ok (placeSeq main gap y0 vis)

/-- Cross-axis size adjustment and placement for one child (stack.py
lines 192-227).  The FLEX branch is a separate `if` in the source, but
the three behavior values are mutually exclusive, so the chain below is
equivalent. -/
def crossAdjust (cfg : StackCfg) (cross : Fin 2) (w : Widget) : Widget :=
  let avail := cfg.current_size.get cross
  let w1 :=
    match w.size_behavior cross with
    | .GROW =>
      if w.maximum_size.get cross = 0 then
        { w with current_size := w.current_size.set cross avail }
      else
        { w with current_size := w.current_size.set cross (min (w.maximum_size.get cross) avail) }
    | .SHRINK =>
      if avail < w.current_size.get cross then
        if w.minimum_size.get cross > -1 then
          { w with current_size := w.current_size.set cross (max (w.minimum_size.get cross) avail) }
        else
          { w with current_size := w.current_size.set cross avail }
      else w
    | .FLEX =>
      if avail < w.current_size.get cross then
        if w.minimum_size.get cross > -1 then
          { w with current_size := w.current_size.set cross (max (w.minimum_size.get cross) avail) }
        else
          { w with current_size := w.current_size.set cross avail }
      else
        if w.maximum_size.get cross = 0 then
          { w with current_size := w.current_size.set cross avail }
        else
          { w with current_size := w.current_size.set cross (min (w.maximum_size.get cross) avail) }
    | .FIXED => w
  let pos :=
    match cfg.cross_alignment with
    | .START => (0 : ℚ)
    | .END => avail - w1.current_size.get cross
    | .CENTER => avail / 2 - w1.current_size.get cross / 2
  { w1 with relative_position := w1.relative_position.set cross pos }

/-- Stack._realign (stack.py lines 135-232): filter the visible children,
reset their current sizes to their preferred sizes, solve the main axis,
place on the main axis, then adjust and place the cross axis.  The Python
code mutates the shared child objects; the result here is the processed
visible-children list (hidden children are untouched by the source). -/
def Stack.realign (cfg : StackCfg) (children : List Widget) :
    Except String (List Widget × Nat) :=
  let main := cfg.direction
  let cross : Fin 2 := ⟨1 - main.val, by omega⟩
  let vis := children.filter (fun c => c.is_visible)
  let vis2 := vis.map (fun c => { c with current_size := c.preferred_size })
  let sr := solve_size_constraints vis2 (cfg.current_size.get main) main
  match placeMain cfg main sr.widgets with
  | .error e => .error e
  | .ok placed => .ok (placed.map (crossAdjust cfg cross), sr.iterations)

/-! ## Layout child management (src/lucyui/layouts/layout.py) -/

/-- Layout.add_widget / add_layout (layout.py lines 189-201, 217-229):
`self._children.append(widget)` with no membership check.  Children are
identified by an id; the parent/realign bookkeeping does not affect the
child list. -/
def Layout.add_widget (children : List Nat) (w : Nat) : List Nat :=
  children ++ [w]

/-- Layout.remove_widget / remove_layout (layout.py lines 203-215,
231-243): `self._children.remove(widget)` removes the first occurrence
and raises ValueError when the child is not present. -/
def Layout.remove_widget (children : List Nat) (w : Nat) : Except String (List Nat) :=
  if w ∈ children then .ok (children.erase w) else .error "ValueError"

/-! ## Widget focus and double click (src/lucyui/widgets/widget.py) -/

/-- Widget.focus (widget.py lines 281-288): returns the new on_focus flag
and whether focus_event was invoked. -/
def Widget.focus (on_focus : Bool) : Bool × Bool :=
  if !on_focus then (true, true) else (true, false)

/-- Widget.unfocus (widget.py lines 290-297): returns the new on_focus
flag and whether unfocus_event was invoked. -/
def Widget.unfocus (on_focus : Bool) : Bool × Bool :=
  if on_focus then (false, true) else (false, false)

/-- The per-widget press-timestamp state (widget.py: _last_pressed starts
at 0.0, double_click_duration defaults to 500.0 ms). -/
structure ClickState where
  last_pressed : ℚ
  double_click_duration : ℚ
deriving DecidableEq, Repr

/-- Left-button-down handling (widget.py lines 192-199): `now` is the
perf_counter value in seconds.  The source sets _last_pressed to 0 inside
the double-click branch and then unconditionally overwrites it with
perf_counter(); both assignments are modelled in order. -/
def pressStep (st : ClickState) (now : ℚ) : ClickState × Bool :=
  let elapsed := (now - st.last_pressed) * 1000
  if elapsed < st.double_click_duration then
    let st1 := { st with last_pressed := 0 }
    let st2 := { st1 with last_pressed := now }
    (st2, true)
  else
    ({ st with last_pressed := now }, false)

/-- Number of double-click events fired over a sequence of left-button
press times. -/
def countDoubleClicks (st : ClickState) : List ℚ → Nat
  | [] => 0
  | t :: ts =>
    let r := pressStep st t
    (if r.2 then 1 else 0) + countDoubleClicks r.1 ts

/-! ## TextInput editing state (src/src/textinput.py) -/

/-- The TextInput editing state: text, cursor index, scroll offset and
the selection bookkeeping (_sel_on, _ssel_on, _sel_done, _sel_start,
_sel_end).  Indices are Python ints. -/
structure TextInputState where
  text : List Char
  cursor_pos : Int
  scroll : ℚ
  sel_on : Bool
  ssel_on : Bool
  sel_done : Bool
  sel_start : Int
  sel_end : Int
deriving DecidableEq, Repr

/-- Python s[:i] for a non-negative index i (all slice indices reaching
this helper in the modelled branch are non-negative). -/
def pyTake (l : List Char) (i : Int) : List Char :=
  l.take i.toNat

/-- Python s[i:] for a non-negative index i. -/
def pyDrop (l : List Char) (i : Int) : List Char :=
  l.drop i.toNat

/-- TextInput._get_partial_text_size(index)[0] (textinput.py lines
82-85): 0 for empty text, otherwise the rendered pixel width of
text[:index].  The font is the external measurement collaborator,
abstracted as a width function on character lists. -/
def textWidthUpTo (measure : List Char → ℚ) (text : List Char) (i : Int) : ℚ :=
  if text.length = 0 then 0 else measure (pyTake text i)

/-- TextInput.unselect (textinput.py lines 463-470). -/
def unselect (st : TextInputState) : TextInputState :=
  { st with sel_on := false, ssel_on := false, sel_done := false,
            sel_start := -1, sel_end := -1 }

/-- The TEXTINPUT event branch of TextInput.update (textinput.py lines
138-189), processed only while focused.  `inputWidth` is
current_size.width - padding * 2.  With a finalized selection the source
normalizes the indices, replaces text[:a+1][:-1] + event.text + text[b:],
puts the cursor at a+1 and clears the selection; with no selection in
progress it inserts at the cursor and advances the cursor by one. -/
def handleTextInput (measure : List Char → ℚ) (inputWidth : ℚ)
    (s : List Char) (st : TextInputState) : TextInputState :=
  if st.sel_done then
    let sel_start := if st.sel_start > st.sel_end then st.sel_end else st.sel_start
    let sel_end := if st.sel_start > st.sel_end then st.sel_start else st.sel_end
    let sel_start := sel_start + 1
    let old_cursor_x :=
      if st.sel_start > st.sel_end then textWidthUpTo measure st.text st.sel_start
      else textWidthUpTo measure st.text st.sel_end
    let first_slice := pyTake st.text sel_start
    let second_slice := pyDrop st.text sel_end
    let text2 := first_slice.dropLast ++ s ++ second_slice
    let cursor2 := sel_start
    let cursor2 := if cursor2 < 0 then 0 else cursor2
    let cursor_x := textWidthUpTo measure text2 cursor2
    let st2 := unselect { st with text := text2, cursor_pos := cursor2 }
    let st3 :=
      if st2.scroll > 0 then { st2 with scroll := st2.scroll - (old_cursor_x - cursor_x) }
      else st2
    if st3.scroll < 0 then { st3 with scroll := 0 } else st3
  else if !st.sel_on then
    let text2 :=
      if st.cursor_pos = (st.text.length : Int) then st.text ++ s
      else pyTake st.text st.cursor_pos ++ s ++ pyDrop st.text st.cursor_pos
    let cursor2 := st.cursor_pos + 1
    let cursor_x := textWidthUpTo measure text2 cursor2
    let st2 := { st with text := text2, cursor_pos := cursor2 }
    if cursor_x - st2.scroll > inputWidth then
      { st2 with scroll := st2.scroll + (cursor_x - st2.scroll - inputWidth) }
    else st2
  else st

/-! ## Basic lemmas about axis access -/

theorem Size.get_set_eq (s : Size) (a : Fin 2) (v : ℚ) : (s.set a v).get a = v := by
  fin_cases a <;> simp [Size.get, Size.set]

theorem Size.get_set_ne (s : Size) (a b : Fin 2) (v : ℚ) (h : a ≠ b) :
    (s.set a v).get b = s.get b := by
  fin_cases a <;> fin_cases b <;> simp_all [Size.get, Size.set]

theorem Vec2.get_set_value (p : Vec2) (a : Fin 2) (v : ℚ) : (p.set a v).get a = v := by
  fin_cases a <;> simp [Vec2.get, Vec2.set]

theorem crossAxis_ne_main (m : Fin 2) (h : 1 - m.val < 2) :
    (⟨1 - m.val, h⟩ : Fin 2) ≠ m := by
  intro he
  have hv := congrArg Fin.val he
  have hm := m.isLt
  simp only [Fin.val_mk] at hv
  omega

/-! ## Solver pass characterization and bookkeeping lemmas -/

theorem solvePass_eq (g : Bool) (axis : Fin 2) (share : ℚ) (st : List (Widget × Bool)) :
    solvePass g axis share st =
      (st.map (passPair g axis share),
       (st.map (passUsed g axis share)).sum,
       st.any (passClamped g axis share)) := by
  induction st with
  | nil => simp [solvePass]
  | cons p rest ih =>
    by_cases hp : p.2 <;> simp [solvePass, ih, passPair, passUsed, passClamped, hp]

theorem passPair_snd_false (g : Bool) (axis : Fin 2) (share : ℚ) (w : Widget) :
    passPair g axis share (w, false) = (w, false) := by
  simp [passPair]

/-- A pass only rewrites the current size on the solved axis: every other
field of every widget is unchanged. -/
theorem stepBox_skeleton (g : Bool) (axis : Fin 2) (share : ℚ) (w : Widget) :
    (stepBox g axis share w).widget.preferred_size = w.preferred_size ∧
    (stepBox g axis share w).widget.maximum_size = w.maximum_size ∧
    (stepBox g axis share w).widget.minimum_size = w.minimum_size ∧
    (stepBox g axis share w).widget.horizontal_behavior = w.horizontal_behavior ∧
    (stepBox g axis share w).widget.vertical_behavior = w.vertical_behavior ∧
    (stepBox g axis share w).widget.is_visible = w.is_visible := by
  simp [stepBox]

theorem stepBox_behavior (g : Bool) (axis b : Fin 2) (share : ℚ) (w : Widget) :
    (stepBox g axis share w).widget.size_behavior b = w.size_behavior b := by
  obtain ⟨-, -, -, h4, h5, -⟩ := stepBox_skeleton g axis share w
  simp [Widget.size_behavior, h4, h5]

/-- The committed current size on the solved axis after one step. -/
theorem stepBox_current (g : Bool) (axis : Fin 2) (share : ℚ) (w : Widget) :
    (stepBox g axis share w).widget.current_size.get axis
      = (if g then
           (if g = true ∧ w.maximum_size.get axis > 0 then
              min (w.current_size.get axis + (if g then (1:ℚ) else -1) * share)
                (w.maximum_size.get axis)
            else w.current_size.get axis + (if g then (1:ℚ) else -1) * share)
         else
           max
             (if g = true ∧ w.maximum_size.get axis > 0 then
                min (w.current_size.get axis + (if g then (1:ℚ) else -1) * share)
                  (w.maximum_size.get axis)
              else w.current_size.get axis + (if g then (1:ℚ) else -1) * share)
             (w.minimum_size.get axis)) := by
  cases g <;> simp [stepBox, Size.get_set_eq]

/-- With an unchanged clamp (clamped = false), the step moves the current
size by exactly (direction * share). -/
theorem stepBox_noclamp (g : Bool) (axis : Fin 2) (share : ℚ) (w : Widget)
    (hs : 0 ≤ share)
    (h : (stepBox g axis share w).clamped = false) :
    (stepBox g axis share w).widget.current_size.get axis
        = w.current_size.get axis + (if g then (1:ℚ) else -1) * share ∧
    (stepBox g axis share w).used = share := by
  cases g
  · simp only [stepBox, decide_eq_false_iff_not, ne_eq, not_not, Bool.false_eq_true,
      false_and, if_false, ite_false] at h
    refine ⟨?_, ?_⟩
    · simp only [stepBox, Bool.false_eq_true, false_and, if_false, ite_false,
        Size.get_set_eq, h]
    · simp only [stepBox, Bool.false_eq_true, false_and, if_false, ite_false, h]
      rw [show w.current_size.get axis + -1 * share - w.current_size.get axis = -share by ring,
        abs_neg, abs_of_nonneg hs]
  · simp only [stepBox, decide_eq_false_iff_not, ne_eq, not_not, true_and, if_true,
      ite_true] at h
    refine ⟨?_, ?_⟩
    · simp only [stepBox, true_and, if_true, ite_true, Size.get_set_eq, h]
    · simp only [stepBox, true_and, if_true, ite_true, h]
      rw [show w.current_size.get axis + 1 * share - w.current_size.get axis = share by ring,
        abs_of_nonneg hs]

/-! ## Solver loop lemmas -/

theorem solveLoop_stop (g : Bool) (axis : Fin 2) (fuel : Nat)
    (st : List (Widget × Bool)) (remaining : ℚ) (iters : Nat) (cl : Bool)
    (h : ¬ EPSILON < remaining) :
    solveLoop g axis fuel st remaining iters cl = ⟨st.map Prod.fst, iters, cl⟩ := by
  cases fuel with
  | zero => simp [solveLoop]
  | succ n => simp [solveLoop, h]

theorem solveLoop_clamped_true (g : Bool) (axis : Fin 2) :
    ∀ (fuel : Nat) (st : List (Widget × Bool)) (remaining : ℚ) (iters : Nat),
      (solveLoop g axis fuel st remaining iters true).clamped = true := by
  intro fuel
  induction fuel with
  | zero => intro st remaining iters; simp [solveLoop]
  | succ n ih =>
    intro st remaining iters
    simp only [solveLoop]
    by_cases h : EPSILON < remaining ∧ st.countP (fun p => p.2) ≠ 0
    · rw [if_pos h]
      simp only [Bool.true_or]
      exact ih _ _ _
    · rw [if_neg h]

theorem solveLoop_length (g : Bool) (axis : Fin 2) :
    ∀ (fuel : Nat) (st : List (Widget × Bool)) (remaining : ℚ) (iters : Nat) (cl : Bool),
      (solveLoop g axis fuel st remaining iters cl).widgets.length = st.length := by
  intro fuel
  induction fuel with
  | zero => intro st remaining iters cl; simp [solveLoop]
  | succ n ih =>
    intro st remaining iters cl
    simp only [solveLoop]
    by_cases h : EPSILON < remaining ∧ st.countP (fun p => p.2) ≠ 0
    · rw [if_pos h, ih, solvePass_eq]
      simp
    · rw [if_neg h]
      simp

/-- Invariant preservation through the solver loop: any per-pair property
preserved by a single-pair pass step holds of every output widget (for
some eligibility flag). -/
theorem solveLoop_pres (g : Bool) (axis : Fin 2) (P : Widget × Bool → Prop)
    (hstep : ∀ share : ℚ, 0 < share → ∀ p, P p → P (passPair g axis share p)) :
    ∀ (fuel : Nat) (st : List (Widget × Bool)) (remaining : ℚ) (iters : Nat) (cl : Bool),
      (∀ p ∈ st, P p) →
      ∀ w ∈ (solveLoop g axis fuel st remaining iters cl).widgets, ∃ b, P (w, b) := by
  intro fuel
  induction fuel with
  | zero =>
    intro st remaining iters cl hst w hw
    simp only [solveLoop, List.mem_map] at hw
    obtain ⟨p, hp, rfl⟩ := hw
    exact ⟨p.2, hst p hp⟩
  | succ n ih =>
    intro st remaining iters cl hst w hw
    simp only [solveLoop] at hw
    by_cases h : EPSILON < remaining ∧ st.countP (fun p => p.2) ≠ 0
    · rw [if_pos h] at hw
      have hshare : 0 < remaining / ((st.countP (fun p => p.2) : ℚ)) := by
        apply div_pos (lt_trans (by norm_num [EPSILON]) h.1)
        exact_mod_cast Nat.pos_of_ne_zero h.2
      refine ih _ _ _ _ ?_ w hw
      intro p hp
      rw [solvePass_eq] at hp
      simp only [List.mem_map] at hp
      obtain ⟨p0, hp0, rfl⟩ := hp
      exact hstep _ hshare p0 (hst p0 hp0)
    · rw [if_neg h] at hw
      simp only [List.mem_map] at hw
      obtain ⟨p, hp, rfl⟩ := hw
      exact ⟨p.2, hst p hp⟩

/-! ## Generic list sum helpers -/

theorem sum_filter_split {α : Type} (l : List α) (q : α → Bool) (f f2 : α → ℚ) :
    ((l.filter q).map f).sum + ((l.filter (fun a => !q a)).map f2).sum
      = (l.map (fun a => if q a then f a else f2 a)).sum := by
  induction l with
  | nil => simp
  | cons a rest ih =>
    by_cases hq : q a <;> simp [hq, ← ih] <;> ring

theorem sum_map_if_add {α : Type} (l : List α) (q : α → Bool) (f : α → ℚ) (c : ℚ) :
    (l.map (fun a => if q a then f a + c else f a)).sum
      = (l.map f).sum + (l.countP q) * c := by
  induction l with
  | nil => simp
  | cons a rest ih =>
    by_cases hq : q a <;> simp [hq, ih, List.countP_cons] <;> ring

theorem sum_map_if_const {α : Type} (l : List α) (q : α → Bool) (c : ℚ) :
    (l.map (fun a => if q a then c else 0)).sum = (l.countP q) * c := by
  induction l with
  | nil => simp
  | cons a rest ih =>
    by_cases hq : q a <;> simp [hq, ih, List.countP_cons] <;> ring

theorem eligibleFor_stepBox (g2 g : Bool) (axis2 axis : Fin 2) (share : ℚ) (w : Widget) :
    eligibleFor g2 ((stepBox g axis share w).widget) axis2 = eligibleFor g2 w axis2 := by
  simp [eligibleFor, growEligible, shrinkEligible, stepBox_behavior]

/-- With no clamp firing anywhere, the solver loop performs exactly one
iteration in which every eligible widget moves by the full share, and the
remaining amount drops to zero.  `e` is the initial eligibility test. -/
theorem solveLoop_noclamp_shape (g : Bool) (axis : Fin 2) (widgets : List Widget)
    (e : Widget → Bool) (rem : ℚ) (fuel : Nat) (hrem : EPSILON < rem)
    (hn : widgets.countP e ≠ 0)
    (hclamp : (solveLoop g axis (fuel + 1)
        (widgets.map (fun w => (w, e w))) rem 0 false).clamped = false) :
    (solveLoop g axis (fuel + 1)
        (widgets.map (fun w => (w, e w))) rem 0 false).widgets
      = widgets.map (fun w =>
          if e w then
            (stepBox g axis (rem / (widgets.countP e : ℚ)) w).widget
          else w) ∧
    ∀ w ∈ widgets, e w = true →
      (stepBox g axis (rem / (widgets.countP e : ℚ)) w).clamped = false := by
  have hcount : (widgets.map (fun w => (w, e w))).countP (fun p => p.2)
      = widgets.countP e := by
    rw [List.countP_map]
    rfl
  have hcond : EPSILON < rem ∧ widgets.countP e ≠ 0 := ⟨hrem, hn⟩
  have hnq : ((widgets.countP e : ℚ)) ≠ 0 := by
    exact_mod_cast hn
  have hshare : 0 < rem / (widgets.countP e : ℚ) := by
    apply div_pos (lt_trans (by norm_num [EPSILON]) hrem)
    have := Nat.pos_of_ne_zero hn
    exact_mod_cast this
  simp only [solveLoop, hcount] at hclamp ⊢
  rw [if_pos hcond] at hclamp ⊢
  rw [solvePass_eq] at hclamp ⊢
  simp only [Bool.false_or] at hclamp ⊢
  -- the instrumentation flag of the single pass must be false
  have hany : (widgets.map (fun w => (w, e w))).any
      (passClamped g axis (rem / (widgets.countP e : ℚ))) = false := by
    by_contra hc
    rw [Bool.not_eq_false] at hc
    rw [hc, solveLoop_clamped_true] at hclamp
    simp at hclamp
  have hpt : ∀ w ∈ widgets, e w = true →
      (stepBox g axis (rem / (widgets.countP e : ℚ)) w).clamped = false := by
    intro w hw he
    rw [List.any_eq_false] at hany
    have := hany (w, e w) (List.mem_map_of_mem _ hw)
    simpa [passClamped, he] using this
  refine ⟨?_, hpt⟩
  -- total used of the single pass equals the whole remaining amount
  have husedpt : ∀ p ∈ widgets.map (fun w => (w, e w)),
      passUsed g axis (rem / (widgets.countP e : ℚ)) p
        = if p.2 then rem / (widgets.countP e : ℚ) else 0 := by
    intro p hp
    simp only [List.mem_map] at hp
    obtain ⟨w, hw, rfl⟩ := hp
    by_cases he : e w
    · have hcl := hpt w hw he
      have := (stepBox_noclamp g axis _ w (le_of_lt hshare) hcl).2
      simp [passUsed, he, this]
    · simp only [Bool.not_eq_true] at he
      simp [passUsed, he]
  have hused : ((widgets.map (fun w => (w, e w))).map
      (passUsed g axis (rem / (widgets.countP e : ℚ)))).sum = rem := by
    rw [List.map_congr_left husedpt, sum_map_if_const, hcount]
    rw [mul_comm, div_mul_cancel₀ _ hnq]
  rw [hany, hused, sub_self]
  rw [solveLoop_stop _ _ _ _ _ _ _ (by norm_num [EPSILON])]
  simp only [List.map_map]
  apply List.map_congr_left
  intro w hw
  by_cases he : e w <;> simp [passPair, he, Function.comp]

/-- The conservation sum (eligible current sizes plus other preferred
sizes) when every widget still has its preferred size as current size. -/
theorem conservation_sum_id (axis : Fin 2) (widgets : List Widget) (e : Widget → Bool)
    (hreset : ∀ w ∈ widgets, w.current_size.get axis = w.preferred_size.get axis) :
    sumCur (widgets.filter e) axis + sumPref (widgets.filter (fun w => !(e w))) axis
      = sumPref widgets axis := by
  simp only [sumCur, sumPref]
  rw [sum_filter_split]
  apply congrArg
  apply List.map_congr_left
  intro w hw
  by_cases he : e w <;> simp [he, hreset w hw]

/-- The conservation sum after the one-iteration no-clamp solve. -/
theorem conservation_sum_eval (g : Bool) (axis : Fin 2) (widgets : List Widget)
    (share : ℚ) (e : Widget → Bool) (hs : 0 ≤ share)
    (hreset : ∀ w ∈ widgets, w.current_size.get axis = w.preferred_size.get axis)
    (hepres : ∀ w, e ((stepBox g axis share w).widget) = e w)
    (hnc : ∀ w ∈ widgets, e w = true → (stepBox g axis share w).clamped = false) :
    sumCur (((widgets.map (fun w => if e w then (stepBox g axis share w).widget else w)).filter
        e)) axis
      + sumPref (((widgets.map
          (fun w => if e w then (stepBox g axis share w).widget else w)).filter
        (fun w => !(e w)))) axis
      = sumPref widgets axis
        + (widgets.countP e : ℚ) * (if g then share else -share) := by
  simp only [sumCur, sumPref]
  rw [sum_filter_split]
  rw [List.map_map]
  have hpt : ∀ w ∈ widgets,
      ((fun w => if e w then w.current_size.get axis else w.preferred_size.get axis) ∘
        (fun w => if e w then (stepBox g axis share w).widget else w)) w
      = (fun w => if e w then w.preferred_size.get axis + (if g then share else -share)
          else w.preferred_size.get axis) w := by
    intro w hw
    by_cases he : e w
    · have hcur := (stepBox_noclamp g axis share w hs (hnc w hw he)).1
      simp only [Function.comp, he, if_true, ite_true, hepres w, hcur, hreset w hw]
      cases g <;> norm_num
    · simp only [Bool.not_eq_true] at he
      simp [Function.comp, he]
  rw [List.map_congr_left hpt, sum_map_if_add]

theorem map_fst_pair {α β : Type} (l : List α) (f : α → β) :
    (l.map (fun a => (a, f a))).map Prod.fst = l := by
  induction l with
  | nil => rfl
  | cons a t ih => simp [ih]

theorem growEligible_stepBox (g : Bool) (axis2 axis : Fin 2) (share : ℚ) (w : Widget) :
    growEligible ((stepBox g axis share w).widget) axis2 = growEligible w axis2 := by
  simp [growEligible, stepBox_behavior]

theorem shrinkEligible_stepBox (g : Bool) (axis2 axis : Fin 2) (share : ℚ) (w : Widget) :
    shrinkEligible ((stepBox g axis share w).widget) axis2 = shrinkEligible w axis2 := by
  simp [shrinkEligible, stepBox_behavior]

/-- C1 (amended).  Solver conservation: with every current size reset to
the preferred size beforehand, if no box is clamped against a min/max
limit during the solve AND, when the available length differs from the
total preferred size by more than EPSILON, at least one box is eligible
for the solve direction, then the sum of the eligible boxes' current
sizes plus the sum of the non-eligible boxes' preferred sizes equals the
available length to within EPSILON. -/
theorem C1_solver_conservation (widgets : List Widget) (size : ℚ) (axis : Fin 2)
    (hreset : ∀ w ∈ widgets, w.current_size.get axis = w.preferred_size.get axis)
    (hclamp : (solve_size_constraints widgets size axis).clamped = false)
    (hne : EPSILON < |size - sumPref widgets axis| →
      ∃ w ∈ widgets, eligibleFor (decide (sumPref widgets axis < size)) w axis = true) :
    |sumCur (((solve_size_constraints widgets size axis).widgets).filter
        (fun w => eligibleFor (decide (sumPref widgets axis < size)) w axis)) axis
      + sumPref (((solve_size_constraints widgets size axis).widgets).filter
        (fun w => !(eligibleFor (decide (sumPref widgets axis < size)) w axis))) axis
      - size| ≤ EPSILON := by
  by_cases hd0 : size - sumPref widgets axis = 0
  · simp only [solve_size_constraints]
    rw [if_pos hd0]
    rw [conservation_sum_id axis widgets _ hreset]
    have hts : sumPref widgets axis = size := by linarith
    rw [hts, sub_self, abs_zero]
    norm_num [EPSILON]
  · by_cases hpos : size - sumPref widgets axis > 0
    · -- grow direction
      have hdec : decide (sumPref widgets axis < size) = true := by
        simp only [decide_eq_true_eq]
        linarith
      rw [hdec]
      simp only [eligibleFor, ite_true]
      simp only [solve_size_constraints] at hclamp ⊢
      rw [if_neg hd0, if_pos hpos] at hclamp ⊢
      rw [abs_of_pos hpos] at hclamp ⊢
      by_cases hrem : EPSILON < size - sumPref widgets axis
      · have hn : widgets.countP (fun w => growEligible w axis) ≠ 0 := by
          intro h0
          rw [hdec] at hne
          simp only [eligibleFor, ite_true] at hne
          obtain ⟨w, hw, he⟩ := hne (by rw [abs_of_pos hpos]; exact hrem)
          rw [List.countP_eq_zero] at h0
          exact h0 w hw he
        obtain ⟨hshape, hnc⟩ := solveLoop_noclamp_shape true axis widgets
          (fun w => growEligible w axis) (size - sumPref widgets axis)
          widgets.length hrem hn hclamp
        rw [hshape]
        have hnq : ((widgets.countP (fun w => growEligible w axis) : ℚ)) ≠ 0 := by
          exact_mod_cast hn
        have hs : (0:ℚ) ≤ (size - sumPref widgets axis) /
            (widgets.countP (fun w => growEligible w axis) : ℚ) := by
          apply div_nonneg (by linarith)
          positivity
        rw [conservation_sum_eval true axis widgets _ _ hs hreset
          (fun w => growEligible_stepBox _ _ _ _ _) hnc]
        rw [if_pos rfl, mul_comm, div_mul_cancel₀ _ hnq]
        rw [show sumPref widgets axis + (size - sumPref widgets axis) - size = 0 by ring]
        rw [abs_zero]
        norm_num [EPSILON]
      · rw [solveLoop_stop _ _ _ _ _ _ _ hrem]
        have hid : ((widgets.map (fun w => (w, growEligible w axis))).map Prod.fst)
            = widgets := map_fst_pair _ _
        rw [hid, conservation_sum_id axis widgets _ hreset]
        rw [abs_sub_comm, abs_of_pos hpos]
        linarith [not_lt.mp hrem]
    · -- shrink direction
      have hneg : size - sumPref widgets axis < 0 :=
        lt_of_le_of_ne (not_lt.mp hpos) hd0
      have hdec : decide (sumPref widgets axis < size) = false := by
        simp only [decide_eq_false_iff_not]
        intro hlt
        linarith
      rw [hdec]
      simp only [eligibleFor, ite_false, Bool.false_eq_true, if_false]
      simp only [solve_size_constraints] at hclamp ⊢
      rw [if_neg hd0, if_neg (by linarith : ¬ size - sumPref widgets axis > 0)] at hclamp ⊢
      rw [abs_of_neg hneg] at hclamp ⊢
      by_cases hrem : EPSILON < -(size - sumPref widgets axis)
      · have hn : widgets.countP (fun w => shrinkEligible w axis) ≠ 0 := by
          intro h0
          rw [hdec] at hne
          simp only [eligibleFor, ite_false, Bool.false_eq_true, if_false] at hne
          obtain ⟨w, hw, he⟩ := hne (by rw [abs_of_neg hneg]; exact hrem)
          rw [List.countP_eq_zero] at h0
          exact h0 w hw he
        obtain ⟨hshape, hnc⟩ := solveLoop_noclamp_shape false axis widgets
          (fun w => shrinkEligible w axis) (-(size - sumPref widgets axis))
          widgets.length hrem hn hclamp
        rw [hshape]
        have hnq : ((widgets.countP (fun w => shrinkEligible w axis) : ℚ)) ≠ 0 := by
          exact_mod_cast hn
        have hs : (0:ℚ) ≤ (-(size - sumPref widgets axis)) /
            (widgets.countP (fun w => shrinkEligible w axis) : ℚ) := by
          apply div_nonneg (by linarith)
          positivity
        rw [conservation_sum_eval false axis widgets _ _ hs hreset
          (fun w => shrinkEligible_stepBox _ _ _ _ _) hnc]
        rw [if_neg (by simp), ← neg_div, neg_neg, mul_comm, div_mul_cancel₀ _ hnq]
        rw [show sumPref widgets axis + (size - sumPref widgets axis) - size = 0 by ring]
        rw [abs_zero]
        norm_num [EPSILON]
      · rw [solveLoop_stop _ _ _ _ _ _ _ hrem]
        have hid : ((widgets.map (fun w => (w, shrinkEligible w axis))).map Prod.fst)
            = widgets := map_fst_pair _ _
        rw [hid, conservation_sum_id axis widgets _ hreset]
        rw [abs_sub_comm, abs_of_neg hneg]
        linarith [not_lt.mp hrem]

/-- C1 as literally stated is false on the code: a single FIXED box with
preferred size 10 in an available length of 20 is never clamped during
the solve (the loop body never runs), yet the conservation sum stays at
10, off by 10 > EPSILON. -/
theorem C1_counterexample :
    (solve_size_constraints
        [⟨⟨10, 10⟩, ⟨10, 10⟩, ⟨0, 0⟩, ⟨0, 0⟩, ⟨0, 0⟩, .FIXED, .FIXED, true⟩] 20 0).clamped = false ∧
    ¬ (|sumCur (((solve_size_constraints
          [⟨⟨10, 10⟩, ⟨10, 10⟩, ⟨0, 0⟩, ⟨0, 0⟩, ⟨0, 0⟩, .FIXED, .FIXED, true⟩] 20 0).widgets).filter
          (fun w => eligibleFor (decide (sumPref
            [⟨⟨10, 10⟩, ⟨10, 10⟩, ⟨0, 0⟩, ⟨0, 0⟩, ⟨0, 0⟩, .FIXED, .FIXED, true⟩] 0 < 20)) w 0)) 0
        + sumPref (((solve_size_constraints
          [⟨⟨10, 10⟩, ⟨10, 10⟩, ⟨0, 0⟩, ⟨0, 0⟩, ⟨0, 0⟩, .FIXED, .FIXED, true⟩] 20 0).widgets).filter
          (fun w => !(eligibleFor (decide (sumPref
            [⟨⟨10, 10⟩, ⟨10, 10⟩, ⟨0, 0⟩, ⟨0, 0⟩, ⟨0, 0⟩, .FIXED, .FIXED, true⟩] 0 < 20)) w 0))) 0
        - 20| ≤ EPSILON) := by
  constructor <;>
    norm_num [solve_size_constraints, solveLoop, solvePass, sumPref, sumCur, eligibleFor,
      growEligible, shrinkEligible, Widget.size_behavior, Size.get, EPSILON,
      List.countP, List.countP.go]


/-- Witness for C1: a GROW box (preferred 10, unset maximum) next to a
FIXED box (preferred 5) in an available length of 20; nothing clamps and
the GROW box absorbs the surplus, so the conservation sum is exact. -/
theorem C1_witness :
    |sumCur (((solve_size_constraints
        [⟨⟨10, 10⟩, ⟨10, 10⟩, ⟨0, 0⟩, ⟨0, 0⟩, ⟨0, 0⟩, .GROW, .FIXED, true⟩,
         ⟨⟨5, 5⟩, ⟨5, 5⟩, ⟨0, 0⟩, ⟨0, 0⟩, ⟨0, 0⟩, .FIXED, .FIXED, true⟩] 20 0).widgets).filter
        (fun w => eligibleFor (decide (sumPref
          [⟨⟨10, 10⟩, ⟨10, 10⟩, ⟨0, 0⟩, ⟨0, 0⟩, ⟨0, 0⟩, .GROW, .FIXED, true⟩,
           ⟨⟨5, 5⟩, ⟨5, 5⟩, ⟨0, 0⟩, ⟨0, 0⟩, ⟨0, 0⟩, .FIXED, .FIXED, true⟩] 0 < 20)) w 0)) 0
      + sumPref (((solve_size_constraints
        [⟨⟨10, 10⟩, ⟨10, 10⟩, ⟨0, 0⟩, ⟨0, 0⟩, ⟨0, 0⟩, .GROW, .FIXED, true⟩,
         ⟨⟨5, 5⟩, ⟨5, 5⟩, ⟨0, 0⟩, ⟨0, 0⟩, ⟨0, 0⟩, .FIXED, .FIXED, true⟩] 20 0).widgets).filter
        (fun w => !(eligibleFor (decide (sumPref
          [⟨⟨10, 10⟩, ⟨10, 10⟩, ⟨0, 0⟩, ⟨0, 0⟩, ⟨0, 0⟩, .GROW, .FIXED, true⟩,
           ⟨⟨5, 5⟩, ⟨5, 5⟩, ⟨0, 0⟩, ⟨0, 0⟩, ⟨0, 0⟩, .FIXED, .FIXED, true⟩] 0 < 20)) w 0))) 0
      - 20| ≤ EPSILON :=
  C1_solver_conservation
    [⟨⟨10, 10⟩, ⟨10, 10⟩, ⟨0, 0⟩, ⟨0, 0⟩, ⟨0, 0⟩, .GROW, .FIXED, true⟩,
     ⟨⟨5, 5⟩, ⟨5, 5⟩, ⟨0, 0⟩, ⟨0, 0⟩, ⟨0, 0⟩, .FIXED, .FIXED, true⟩] 20 0
    (by simp [Size.get])
    (by norm_num [solve_size_constraints, solveLoop, solvePass, stepBox, sumPref, eligibleFor,
      growEligible, shrinkEligible, Widget.size_behavior, Size.get, Size.set, EPSILON,
      List.countP, List.countP.go, passPair, passUsed, passClamped])
    (fun _ => ⟨⟨⟨10, 10⟩, ⟨10, 10⟩, ⟨0, 0⟩, ⟨0, 0⟩, ⟨0, 0⟩, .GROW, .FIXED, true⟩,
      by norm_num,
      by norm_num [sumPref, Size.get, eligibleFor, growEligible, Widget.size_behavior]⟩)

/-! ## Clamping invariants of one solver step -/

theorem stepBox_le_max (g : Bool) (axis : Fin 2) (share : ℚ) (w : Widget)
    (hs : 0 < share)
    (hmax : 0 < w.maximum_size.get axis)
    (hcur : w.current_size.get axis ≤ w.maximum_size.get axis)
    (hmin : w.minimum_size.get axis ≤ w.maximum_size.get axis) :
    (stepBox g axis share w).widget.current_size.get axis ≤ w.maximum_size.get axis := by
  cases g
  · simp only [stepBox, Bool.false_eq_true, false_and, if_false, ite_false, Size.get_set_eq]
    apply max_le _ hmin
    nlinarith
  · simp only [stepBox, true_and, if_true, ite_true, Size.get_set_eq]
    rw [if_pos hmax]
    exact min_le_right _ _

theorem stepBox_ge_min (axis : Fin 2) (share : ℚ) (w : Widget) :
    w.minimum_size.get axis ≤ (stepBox false axis share w).widget.current_size.get axis := by
  simp only [stepBox, Bool.false_eq_true, false_and, if_false, ite_false, Size.get_set_eq]
  exact le_max_right _ _

theorem stepBox_ge_pref_grow (axis : Fin 2) (share : ℚ) (w : Widget)
    (hs : 0 < share)
    (hmax : w.maximum_size.get axis = 0 ∨
      w.preferred_size.get axis ≤ w.maximum_size.get axis)
    (hcur : w.preferred_size.get axis ≤ w.current_size.get axis) :
    w.preferred_size.get axis ≤ (stepBox true axis share w).widget.current_size.get axis := by
  simp only [stepBox, true_and, if_true, ite_true, Size.get_set_eq]
  by_cases hm : w.maximum_size.get axis > 0
  · rw [if_pos hm]
    apply le_min (by linarith)
    rcases hmax with h0 | hle
    · rw [h0] at hm; norm_num at hm
    · exact hle
  · rw [if_neg hm]; linarith

/-! ## Invariant preservation through the whole solve -/

/-- Any widget property preserved by grow steps and shrink steps holds of
every output widget of solve_size_constraints when it holds initially. -/
theorem solve_pres (axis : Fin 2) (widgets : List Widget) (size : ℚ)
    (P : Widget → Prop)
    (hstepg : ∀ share : ℚ, 0 < share → ∀ w, P w → P (stepBox true axis share w).widget)
    (hsteps : ∀ share : ℚ, 0 < share → ∀ w, P w → P (stepBox false axis share w).widget)
    (hinit : ∀ w ∈ widgets, P w) :
    ∀ w ∈ (solve_size_constraints widgets size axis).widgets, P w := by
  have hpass : ∀ g : Bool, (∀ share : ℚ, 0 < share → ∀ w, P w → P (stepBox g axis share w).widget) →
      ∀ share : ℚ, 0 < share → ∀ p : Widget × Bool, P p.1 → P (passPair g axis share p).1 := by
    intro g hg share hs p hp
    by_cases h2 : p.2
    · simpa [passPair, h2] using hg share hs p.1 hp
    · simpa [passPair, h2] using hp
  intro w hw
  simp only [solve_size_constraints] at hw
  split_ifs at hw with hd0 hpos
  · exact hinit w hw
  · obtain ⟨b, hb⟩ := solveLoop_pres true axis (fun p => P p.1) (hpass true hstepg)
      _ _ _ _ _
      (by
        intro p hp
        simp only [List.mem_map] at hp
        obtain ⟨w0, hw0, rfl⟩ := hp
        exact hinit w0 hw0) w hw
    exact hb
  · obtain ⟨b, hb⟩ := solveLoop_pres false axis (fun p => P p.1) (hpass false hsteps)
      _ _ _ _ _
      (by
        intro p hp
        simp only [List.mem_map] at hp
        obtain ⟨w0, hw0, rfl⟩ := hp
        exact hinit w0 hw0) w hw
    exact hb

/-- Same, for a shrink-direction solve with only the shrink step. -/
theorem solve_pres_shrink (axis : Fin 2) (widgets : List Widget) (size : ℚ)
    (P : Widget → Prop)
    (hdiff : size - sumPref widgets axis < 0)
    (hsteps : ∀ share : ℚ, 0 < share → ∀ w, P w → P (stepBox false axis share w).widget)
    (hinit : ∀ w ∈ widgets, P w) :
    ∀ w ∈ (solve_size_constraints widgets size axis).widgets, P w := by
  have hpass : ∀ share : ℚ, 0 < share → ∀ p : Widget × Bool,
      P p.1 → P (passPair false axis share p).1 := by
    intro share hs p hp
    by_cases h2 : p.2
    · simpa [passPair, h2] using hsteps share hs p.1 hp
    · simpa [passPair, h2] using hp
  intro w hw
  simp only [solve_size_constraints] at hw
  rw [if_neg (by linarith), if_neg (by linarith)] at hw
  obtain ⟨b, hb⟩ := solveLoop_pres false axis (fun p => P p.1) hpass
    _ _ _ _ _
    (by
      intro p hp
      simp only [List.mem_map] at hp
      obtain ⟨w0, hw0, rfl⟩ := hp
      exact hinit w0 hw0) w hw
  exact hb

/-- C3 (amended).  Solver monotonic clamping holds for boxes whose
starting (preferred) size already respects the relevant limit: after
solve_size_constraints (with current sizes reset to preferred), every box
with a set maximum (> 0), preferred size within that maximum and
consistent limits (min <= max) ends at most max + EPSILON; and on a
shrink-direction solve every box whose preferred size is at least its
minimum ends at least min - EPSILON. -/
theorem C3_monotonic_clamping (widgets : List Widget) (size : ℚ) (axis : Fin 2)
    (hreset : ∀ w ∈ widgets, w.current_size.get axis = w.preferred_size.get axis) :
    ∀ w ∈ (solve_size_constraints widgets size axis).widgets,
      (0 < w.maximum_size.get axis →
        w.preferred_size.get axis ≤ w.maximum_size.get axis →
        w.minimum_size.get axis ≤ w.maximum_size.get axis →
        w.current_size.get axis ≤ w.maximum_size.get axis + EPSILON) ∧
      (size - sumPref widgets axis < 0 →
        w.minimum_size.get axis ≤ w.preferred_size.get axis →
        w.minimum_size.get axis - EPSILON ≤ w.current_size.get axis) := by
  intro w hw
  constructor
  · intro hm hpm hmm
    have ha := solve_pres axis widgets size
      (fun w => 0 < w.maximum_size.get axis →
        w.preferred_size.get axis ≤ w.maximum_size.get axis →
        w.minimum_size.get axis ≤ w.maximum_size.get axis →
        w.current_size.get axis ≤ w.maximum_size.get axis)
      (by
        intro share hs w0 hp
        obtain ⟨h1, h2, h3, -, -, -⟩ := stepBox_skeleton true axis share w0
        rw [h1, h2, h3]
        intro hm0 hpm0 hmm0
        exact stepBox_le_max true axis share w0 hs hm0 (hp hm0 hpm0 hmm0) hmm0)
      (by
        intro share hs w0 hp
        obtain ⟨h1, h2, h3, -, -, -⟩ := stepBox_skeleton false axis share w0
        rw [h1, h2, h3]
        intro hm0 hpm0 hmm0
        exact stepBox_le_max false axis share w0 hs hm0 (hp hm0 hpm0 hmm0) hmm0)
      (by
        intro w0 hw0 hm0 hpm0 hmm0
        rw [hreset w0 hw0]
        exact hpm0)
      w hw hm hpm hmm
    have : (0:ℚ) < EPSILON := by norm_num [EPSILON]
    linarith
  · intro hdiff hmp
    have hb := solve_pres_shrink axis widgets size
      (fun w => w.minimum_size.get axis ≤ w.preferred_size.get axis →
        w.minimum_size.get axis ≤ w.current_size.get axis)
      hdiff
      (by
        intro share hs w0 hp
        obtain ⟨h1, -, h3, -, -, -⟩ := stepBox_skeleton false axis share w0
        rw [h1, h3]
        intro hmp0
        exact stepBox_ge_min axis share w0)
      (by
        intro w0 hw0 hmp0
        rw [hreset w0 hw0]
        exact hmp0)
      w hw hmp
    have : (0:ℚ) < EPSILON := by norm_num [EPSILON]
    linarith

/-- C3 as literally stated is false on the code: a FIXED box with
preferred size 100 and maximum 50 is left untouched by a solve with zero
difference, ending at 100 > 50 + EPSILON. -/
theorem C3_counterexample :
    (solve_size_constraints
        [⟨⟨100, 10⟩, ⟨100, 10⟩, ⟨0, 0⟩, ⟨50, 0⟩, ⟨0, 0⟩, .FIXED, .FIXED, true⟩] 100 0).widgets
      = [⟨⟨100, 10⟩, ⟨100, 10⟩, ⟨0, 0⟩, ⟨50, 0⟩, ⟨0, 0⟩, .FIXED, .FIXED, true⟩] ∧
    0 < Size.get ⟨50, 0⟩ 0 ∧
    ¬ (Size.get ⟨100, 10⟩ 0 ≤ Size.get ⟨50, 0⟩ 0 + EPSILON) := by
  refine ⟨?_, ?_, ?_⟩ <;>
    norm_num [solve_size_constraints, sumPref, Size.get, EPSILON]

/-- Witness for C3: a GROW box with preferred 10 and maximum 15 in an
available length of 40 clamps at its maximum and ends within the bound. -/
theorem C3_witness :
    Size.get ⟨15, 10⟩ 0 ≤ Size.get ⟨15, 0⟩ 0 + EPSILON := by
  have h := C3_monotonic_clamping
    [⟨⟨10, 10⟩, ⟨10, 10⟩, ⟨0, 0⟩, ⟨15, 0⟩, ⟨0, 0⟩, .GROW, .FIXED, true⟩] 40 0
    (by simp [Size.get])
    ⟨⟨10, 10⟩, ⟨15, 10⟩, ⟨0, 0⟩, ⟨15, 0⟩, ⟨0, 0⟩, .GROW, .FIXED, true⟩
    (by
      norm_num [solve_size_constraints, solveLoop, solvePass, stepBox, sumPref, Size.get,
        Size.set, growEligible, Widget.size_behavior, EPSILON, List.countP, List.countP.go])
  exact h.1 (by norm_num [Size.get]) (by norm_num [Size.get]) (by norm_num [Size.get])

/-- C2: evaluation of the solver at the failing input.  Boxes A (GROW,
preferred 10, maximum unset = 0) and B (GROW, preferred 10, maximum 15)
in an available length of 40: after the first iteration A holds 20 and B
clamps at 15; A is dropped from the eligible set by the test
`current < maximum` (20 < 0 is false), so B's unused share is never
redistributed and the loop exits with 5 > EPSILON still unplaced. -/
theorem C2_unset_max_drops_out :
    ((solve_size_constraints
        [⟨⟨10, 10⟩, ⟨10, 10⟩, ⟨0, 0⟩, ⟨0, 0⟩, ⟨0, 0⟩, .GROW, .FIXED, true⟩,
         ⟨⟨10, 10⟩, ⟨10, 10⟩, ⟨0, 0⟩, ⟨15, 0⟩, ⟨0, 0⟩, .GROW, .FIXED, true⟩] 40 0).widgets.map
      (fun w => w.current_size.get 0)) = [20, 15] ∧
    EPSILON < 40 - (20 + 15 : ℚ) := by
  constructor <;>
    norm_num [solve_size_constraints, solveLoop, solvePass, stepBox, sumPref,
      Size.get, Size.set, growEligible, Widget.size_behavior, EPSILON,
      List.countP, List.countP.go]

/-- After a solve from reset sizes, a box whose behavior on the axis is
GROW and whose maximum is unset (0) or at least its preferred size never
ends below its preferred size: in the grow direction each step only
moves it up (clamped at a maximum that is at least the preferred size),
and in the shrink direction GROW boxes are never eligible, hence never
touched. -/
theorem solve_grow_ge_pref (axis : Fin 2) (widgets : List Widget) (size : ℚ)
    (hreset : ∀ w ∈ widgets, w.current_size.get axis = w.preferred_size.get axis) :
    ∀ w ∈ (solve_size_constraints widgets size axis).widgets,
      w.size_behavior axis = .GROW →
      (w.maximum_size.get axis = 0 ∨
        w.preferred_size.get axis ≤ w.maximum_size.get axis) →
      w.preferred_size.get axis ≤ w.current_size.get axis := by
  intro w hw
  simp only [solve_size_constraints] at hw
  split_ifs at hw with hd0 hpos
  · intro _ _
    rw [hreset w hw]
  · -- grow direction
    intro hbeh hmx
    obtain ⟨b, hb⟩ := solveLoop_pres true axis
      (fun p => p.1.size_behavior axis = .GROW →
        (p.1.maximum_size.get axis = 0 ∨
          p.1.preferred_size.get axis ≤ p.1.maximum_size.get axis) →
        p.1.preferred_size.get axis ≤ p.1.current_size.get axis)
      (by
        intro share hs p hp
        by_cases h2 : p.2
        · simp only [passPair, h2, if_true, ite_true]
          intro hbeh2 hmx2
          rw [stepBox_behavior] at hbeh2
          obtain ⟨hpr, hmax2, -, -, -, -⟩ := stepBox_skeleton true axis share p.1
          rw [hpr, hmax2] at hmx2
          rw [hpr]
          exact stepBox_ge_pref_grow axis share p.1 hs hmx2 (hp hbeh2 hmx2)
        · simp only [passPair, h2, if_false, ite_false]
          exact hp)
      _ _ _ _ _
      (by
        intro p hp
        simp only [List.mem_map] at hp
        obtain ⟨w0, hw0, rfl⟩ := hp
        intro hbeh0 hmx0
        rw [hreset w0 hw0])
      w hw
    exact hb hbeh hmx
  · -- shrink direction: GROW boxes are never eligible
    intro hbeh hmx
    obtain ⟨b, hb⟩ := solveLoop_pres false axis
      (fun p => p.1.size_behavior axis = .GROW →
        p.1.preferred_size.get axis ≤ p.1.current_size.get axis ∧ p.2 = false)
      (by
        intro share hs p hp
        by_cases h2 : p.2
        · simp only [passPair, h2, if_true, ite_true]
          intro hbeh2
          rw [stepBox_behavior] at hbeh2
          exact absurd (hp hbeh2).2 (by simp [h2])
        · simp only [passPair, h2, if_false, ite_false]
          intro hbeh2
          exact ⟨(hp hbeh2).1, rfl⟩)
      _ _ _ _ _
      (by
        intro p hp
        simp only [List.mem_map] at hp
        obtain ⟨w0, hw0, rfl⟩ := hp
        intro hbeh0
        constructor
        · rw [hreset w0 hw0]
        · simp [shrinkEligible, hbeh0])
      w hw
    exact (hb hbeh).1

/-! ## Placement lemmas: main-axis placement only moves widgets -/

theorem placeSeq_mem (axis : Fin 2) (gap : ℚ) :
    ∀ (y : ℚ) (l : List Widget), ∀ w2 ∈ placeSeq axis gap y l,
      ∃ w ∈ l, w2 = { w with relative_position := w2.relative_position } := by
  intro y l
  induction l generalizing y with
  | nil =>
    intro w2 hw2
    simp [placeSeq] at hw2
  | cons a t ih =>
    intro w2 hw2
    simp only [placeSeq, List.mem_cons] at hw2
    rcases hw2 with rfl | hw2
    · exact ⟨a, List.mem_cons_self _ _, rfl⟩
    · obtain ⟨w, hw, hp⟩ := ih _ w2 hw2
      exact ⟨w, List.mem_cons_of_mem _ hw, hp⟩

theorem placeEndRev_mem (axis : Fin 2) (avail : ℚ) :
    ∀ (y : ℚ) (l : List Widget), ∀ w2 ∈ placeEndRev axis avail y l,
      ∃ w ∈ l, w2 = { w with relative_position := w2.relative_position } := by
  intro y l
  induction l generalizing y with
  | nil =>
    intro w2 hw2
    simp [placeEndRev] at hw2
  | cons a t ih =>
    intro w2 hw2
    simp only [placeEndRev, List.mem_cons] at hw2
    rcases hw2 with rfl | hw2
    · exact ⟨a, List.mem_cons_self _ _, rfl⟩
    · obtain ⟨w, hw, hp⟩ := ih _ w2 hw2
      exact ⟨w, List.mem_cons_of_mem _ hw, hp⟩

theorem placeEnd_mem (axis : Fin 2) (avail : ℚ) (l : List Widget) :
    ∀ w2 ∈ placeEnd axis avail l,
      ∃ w ∈ l, w2 = { w with relative_position := w2.relative_position } := by
  intro w2 hw2
  simp only [placeEnd, List.mem_reverse] at hw2
  obtain ⟨w, hw, hp⟩ := placeEndRev_mem axis avail 0 l.reverse w2 hw2
  exact ⟨w, List.mem_reverse.mp hw, hp⟩

theorem placeMain_mem (cfg : StackCfg) (main : Fin 2) (vis placed : List Widget)
    (h : placeMain cfg main vis = .ok placed) :
    ∀ w2 ∈ placed, ∃ w ∈ vis, w2 = { w with relative_position := w2.relative_position } := by
  unfold placeMain at h
  cases hma : cfg.main_alignment
  · -- START
    rw [hma] at h
    simp only [Except.ok.injEq] at h
    rw [← h]
    exact placeSeq_mem main 0 0 vis
  · -- END
    rw [hma] at h
    simp only [Except.ok.injEq] at h
    rw [← h]
    exact placeEnd_mem main (cfg.current_size.get main) vis
  · -- CENTER
    rw [hma] at h
    simp only at h
    by_cases h0 : (match cfg.distribution with
      | LayoutDistribution.SPACE_BETWEEN => ((vis.length : Int)) - 1
      | LayoutDistribution.SPACE_AROUND => ((vis.length : Int)) + 1) = 0
    · rw [if_pos h0] at h
      simp at h
    · rw [if_neg h0] at h
      simp only [Except.ok.injEq] at h
      subst h
      exact placeSeq_mem main _ _ vis

/-- Cross-axis adjustment leaves every field on any other axis (and all
non-geometric fields) unchanged. -/
theorem crossAdjust_other_axis (cfg : StackCfg) (cross b : Fin 2) (hb : cross ≠ b)
    (w : Widget) :
    (crossAdjust cfg cross w).current_size.get b = w.current_size.get b ∧
    (crossAdjust cfg cross w).preferred_size = w.preferred_size ∧
    (crossAdjust cfg cross w).maximum_size = w.maximum_size ∧
    (crossAdjust cfg cross w).minimum_size = w.minimum_size ∧
    (crossAdjust cfg cross w).horizontal_behavior = w.horizontal_behavior ∧
    (crossAdjust cfg cross w).vertical_behavior = w.vertical_behavior := by
  unfold crossAdjust
  cases hbeh : w.size_behavior cross <;>
    simp only [hbeh] <;>
    first
      | (split_ifs <;> simp [Size.get_set_ne _ _ _ _ hb])
      | simp [Size.get_set_ne _ _ _ _ hb]

/-- Dissection of a successful Stack realign into its phases. -/
theorem realign_ok_elim (cfg : StackCfg) (children : List Widget) (out : List Widget × Nat)
    (hok : Stack.realign cfg children = .ok out) :
    ∃ placed, placeMain cfg cfg.direction
        ((solve_size_constraints
          ((children.filter (fun c => c.is_visible)).map
            (fun c => { c with current_size := c.preferred_size }))
          (cfg.current_size.get cfg.direction) cfg.direction).widgets) = .ok placed ∧
      out.1 = placed.map (crossAdjust cfg ⟨1 - cfg.direction.val, by omega⟩) := by
  simp only [Stack.realign] at hok
  cases hpm : placeMain cfg cfg.direction
      ((solve_size_constraints
        ((children.filter (fun c => c.is_visible)).map
          (fun c => { c with current_size := c.preferred_size }))
        (cfg.current_size.get cfg.direction) cfg.direction).widgets) with
  | error e =>
    rw [hpm] at hok
    simp at hok
  | ok placed =>
    rw [hpm] at hok
    simp only [Except.ok.injEq] at hok
    refine ⟨placed, rfl, ?_⟩
    rw [← hok]

/-- C4 (amended).  After a successful Stack realign, every child in the
output whose MAIN-axis behavior is GROW and whose main-axis maximum is
unset (0) or at least its preferred size has a main-axis current size of
at least its preferred size.  (On the cross axis no such guarantee holds:
a GROW child's cross size is set to the stack's available cross size,
capped by its maximum when set, which may be below its preferred size.) -/
theorem C4_grow_main_never_below_preferred (cfg : StackCfg) (children : List Widget)
    (out : List Widget × Nat) (hok : Stack.realign cfg children = .ok out) :
    ∀ w ∈ out.1, w.size_behavior cfg.direction = .GROW →
      (w.maximum_size.get cfg.direction = 0 ∨
        w.preferred_size.get cfg.direction ≤ w.maximum_size.get cfg.direction) →
      w.preferred_size.get cfg.direction ≤ w.current_size.get cfg.direction := by
  obtain ⟨placed, hpm, hout⟩ := realign_ok_elim cfg children out hok
  intro w hw hbeh hmx
  rw [hout] at hw
  simp only [List.mem_map] at hw
  obtain ⟨wp, hwp, rfl⟩ := hw
  have hne : (⟨1 - cfg.direction.val, by omega⟩ : Fin 2) ≠ cfg.direction :=
    crossAxis_ne_main cfg.direction (by omega)
  obtain ⟨hcur, hpref, hmax, hmin, hhb, hvb⟩ :=
    crossAdjust_other_axis cfg ⟨1 - cfg.direction.val, by omega⟩ cfg.direction hne wp
  have hsb : (crossAdjust cfg ⟨1 - cfg.direction.val, by omega⟩ wp).size_behavior cfg.direction
      = wp.size_behavior cfg.direction := by
    simp [Widget.size_behavior, hhb, hvb]
  rw [hsb] at hbeh
  rw [hmax, hpref] at hmx
  rw [hpref, hcur]
  -- transfer through the main-axis placement
  obtain ⟨w0, hw0, hwp0⟩ := placeMain_mem cfg cfg.direction _ placed hpm wp hwp
  have hwp_cur : wp.current_size = w0.current_size := by rw [hwp0]
  have hwp_pref : wp.preferred_size = w0.preferred_size := by rw [hwp0]
  have hwp_max : wp.maximum_size = w0.maximum_size := by rw [hwp0]
  have hwp_beh : wp.size_behavior cfg.direction = w0.size_behavior cfg.direction := by
    rw [hwp0]
    simp [Widget.size_behavior]
  rw [hwp_cur, hwp_pref]
  rw [hwp_beh] at hbeh
  rw [hwp_pref, hwp_max] at hmx
  -- solver-level property
  refine solve_grow_ge_pref cfg.direction _ _ ?_ w0 hw0 hbeh hmx
  intro w1 hw1
  simp only [List.mem_map] at hw1
  obtain ⟨c, -, rfl⟩ := hw1
  rfl

/-- C4 as stated is false on the code: in a vertical stack of cross
(horizontal) size 10, a visible child with preferred width 100 and
horizontal behavior GROW ends with current width 10 < 100 after realign:
the cross-axis adjustment sets a GROW child's size to the available
cross size regardless of its preferred size. -/
theorem C4_counterexample :
    Stack.realign
        ⟨1, .START, .START, .SPACE_AROUND, ⟨10, 10⟩⟩
        [⟨⟨100, 5⟩, ⟨100, 5⟩, ⟨0, 0⟩, ⟨0, 0⟩, ⟨0, 0⟩, .GROW, .FIXED, true⟩]
      = .ok ([⟨⟨100, 5⟩, ⟨10, 5⟩, ⟨0, 0⟩, ⟨0, 0⟩, ⟨0, 0⟩, .GROW, .FIXED, true⟩], 0) ∧
    Widget.size_behavior ⟨⟨100, 5⟩, ⟨10, 5⟩, ⟨0, 0⟩, ⟨0, 0⟩, ⟨0, 0⟩, .GROW, .FIXED, true⟩ 0
      = .GROW ∧
    ¬ (Size.get ⟨100, 5⟩ 0 ≤ Size.get ⟨10, 5⟩ 0) := by
  refine ⟨?_, ?_, ?_⟩ <;>
    norm_num [Stack.realign, placeMain, placeSeq, crossAdjust, solve_size_constraints,
      solveLoop, solvePass, stepBox, sumPref, Size.get, Size.set, Vec2.set, growEligible,
      shrinkEligible, Widget.size_behavior, EPSILON, List.countP, List.countP.go]

/-- Witness for C4: a horizontal stack of main size 100 with a single
GROW child of preferred width 10 and unset maximum; after realign the
child's main size is 100, at least its preferred 10. -/
theorem C4_witness :
    Size.get ⟨10, 10⟩ 0 ≤ Size.get ⟨100, 10⟩ 0 := by
  have h := C4_grow_main_never_below_preferred
    ⟨0, .START, .START, .SPACE_AROUND, ⟨100, 50⟩⟩
    [⟨⟨10, 10⟩, ⟨10, 10⟩, ⟨0, 0⟩, ⟨0, 0⟩, ⟨0, 0⟩, .GROW, .FIXED, true⟩]
    ([⟨⟨10, 10⟩, ⟨100, 10⟩, ⟨0, 0⟩, ⟨0, 0⟩, ⟨0, 0⟩, .GROW, .FIXED, true⟩], 1)
    (by norm_num [Stack.realign, placeMain, placeSeq, crossAdjust, solve_size_constraints,
      solveLoop, solvePass, stepBox, sumPref, Size.get, Size.set, Vec2.set, growEligible,
      shrinkEligible, Widget.size_behavior, EPSILON, List.countP, List.countP.go])
    ⟨⟨10, 10⟩, ⟨100, 10⟩, ⟨0, 0⟩, ⟨0, 0⟩, ⟨0, 0⟩, .GROW, .FIXED, true⟩
    (by simp)
    (by norm_num [Widget.size_behavior])
    (Or.inl (by norm_num [Size.get]))
  simpa using h

theorem solve_length (widgets : List Widget) (size : ℚ) (axis : Fin 2) :
    (solve_size_constraints widgets size axis).widgets.length = widgets.length := by
  simp only [solve_size_constraints]
  split_ifs
  · rfl
  · rw [solveLoop_length]
    simp
  · rw [solveLoop_length]
    simp

theorem placeMain_center_single (cfg : StackCfg) (main : Fin 2) (vis : List Widget)
    (h1 : cfg.main_alignment = .CENTER) (h2 : cfg.distribution = .SPACE_BETWEEN)
    (hlen : vis.length = 1) :
    placeMain cfg main vis = .error "ZeroDivisionError" := by
  unfold placeMain
  simp only [h1, h2, hlen]
  norm_num

/-- C10.  Realigning a Stack with CENTER main alignment, SPACE_BETWEEN
distribution and exactly one visible child raises ZeroDivisionError: the
gap computation divides the remaining space by (visible children - 1) =
0 before the `remaining <= 0` guard can apply, so _realign never
completes. -/
theorem C10_single_child_div_zero (cfg : StackCfg) (w : Widget)
    (h1 : cfg.main_alignment = .CENTER) (h2 : cfg.distribution = .SPACE_BETWEEN)
    (h3 : w.is_visible = true) :
    Stack.realign cfg [w] = .error "ZeroDivisionError" := by
  simp only [Stack.realign]
  have hf : ([w].filter (fun c => c.is_visible)) = [w] := by simp [h3]
  rw [hf]
  rw [placeMain_center_single cfg cfg.direction _ h1 h2 (by rw [solve_length]; simp)]

/-- Witness for C10: a concrete CENTER / SPACE_BETWEEN stack with one
visible FIXED child raises the division error. -/
theorem C10_witness :
    Stack.realign ⟨0, .CENTER, .START, .SPACE_BETWEEN, ⟨100, 50⟩⟩
        [⟨⟨70, 10⟩, ⟨70, 10⟩, ⟨0, 0⟩, ⟨0, 0⟩, ⟨0, 0⟩, .FIXED, .FIXED, true⟩]
      = .error "ZeroDivisionError" :=
  C10_single_child_div_zero _ _ rfl rfl rfl

/-- C5 as stated is false on the code: with solved sizes [70, 115, 70]
in a 405-length container under CENTER / SPACE_BETWEEN, the gap is 75
but the resulting offsets are [0, 145, 335] (each child is placed at the
previous offset + previous child's size + gap), not [0, 145, 290]. -/
theorem C5_counterexample :
    (Stack.realign ⟨0, .CENTER, .START, .SPACE_BETWEEN, ⟨405, 50⟩⟩
        [⟨⟨70, 10⟩, ⟨70, 10⟩, ⟨0, 0⟩, ⟨0, 0⟩, ⟨0, 0⟩, .FIXED, .FIXED, true⟩,
         ⟨⟨115, 10⟩, ⟨115, 10⟩, ⟨0, 0⟩, ⟨0, 0⟩, ⟨0, 0⟩, .FIXED, .FIXED, true⟩,
         ⟨⟨70, 10⟩, ⟨70, 10⟩, ⟨0, 0⟩, ⟨0, 0⟩, ⟨0, 0⟩, .FIXED, .FIXED, true⟩]).map
      (fun r => r.1.map (fun w => w.relative_position.get 0))
      = .ok [0, 145, 335] ∧
    (335 : ℚ) ≠ 290 := by
  constructor
  · norm_num [Stack.realign, placeMain, placeSeq, crossAdjust, solve_size_constraints,
      solveLoop, solvePass, stepBox, sumPref, Size.get, Size.set, Vec2.get, Vec2.set,
      growEligible, shrinkEligible, Widget.size_behavior, EPSILON,
      List.countP, List.countP.go, Except.map]
  · norm_num

/-- C5 (amended).  Three visible children with solved main-axis sizes
[70, 115, 70] in a 405-length container under CENTER alignment and
SPACE_BETWEEN distribution get gap (405-255)/2 = 75 and resulting
main-axis offsets [0, 70+75, 70+75+115+75] = [0, 145, 335]. -/
theorem C5_distribution_gap :
    ((405 : ℚ) - (70 + 115 + 70)) / 2 = 75 ∧
    (Stack.realign ⟨0, .CENTER, .START, .SPACE_BETWEEN, ⟨405, 50⟩⟩
        [⟨⟨70, 10⟩, ⟨70, 10⟩, ⟨0, 0⟩, ⟨0, 0⟩, ⟨0, 0⟩, .FIXED, .FIXED, true⟩,
         ⟨⟨115, 10⟩, ⟨115, 10⟩, ⟨0, 0⟩, ⟨0, 0⟩, ⟨0, 0⟩, .FIXED, .FIXED, true⟩,
         ⟨⟨70, 10⟩, ⟨70, 10⟩, ⟨0, 0⟩, ⟨0, 0⟩, ⟨0, 0⟩, .FIXED, .FIXED, true⟩]).map
      (fun r => r.1.map (fun w => w.relative_position.get 0))
      = .ok [0, 70 + 75, 70 + 75 + 115 + 75] := by
  constructor
  · norm_num
  · norm_num [Stack.realign, placeMain, placeSeq, crossAdjust, solve_size_constraints,
      solveLoop, solvePass, stepBox, sumPref, Size.get, Size.set, Vec2.get, Vec2.set,
      growEligible, shrinkEligible, Widget.size_behavior, EPSILON,
      List.countP, List.countP.go, Except.map]

/-- C7: evaluation of the double-click handling at the failing input.
Three left-button presses at 100s, 100.4s and 100.8s (each 400ms after
the previous) fire TWO double-click events: the `_last_pressed = 0`
reset inside the double-click branch is immediately overwritten by the
unconditional `_last_pressed = perf_counter()`, so the third rapid press
re-triggers.  Two presses 600ms apart fire none. -/
theorem C7_double_click_eval :
    countDoubleClicks ⟨0, 500⟩ [100, 100 + 2/5, 100 + 4/5] = 2 ∧
    countDoubleClicks ⟨0, 500⟩ [100, 100 + 3/5] = 0 := by
  constructor <;> norm_num [countDoubleClicks, pressStep]

/-- C8 (amended).  Removing a child that is not in the layout's child
list raises ValueError immediately (list.remove); adding a child that is
already present does NOT fail: add_widget performs no membership check
and silently appends a second occurrence. -/
theorem C8_child_structure (children : List Nat) (w : Nat)
    (habsent : w ∉ children) :
    Layout.remove_widget children w = .error "ValueError" ∧
    Layout.add_widget children w = children ++ [w] := by
  constructor
  · simp [Layout.remove_widget, habsent]
  · rfl

/-- C8 as stated is false for add_widget: adding the already-present
child 0 to the child list [0] does not fail; it yields [0, 0] with the
child present twice. -/
theorem C8_counterexample :
    (0 ∈ ([0] : List Nat)) ∧
    Layout.add_widget [0] 0 = [0, 0] ∧
    (Layout.add_widget [0] 0).count 0 = 2 := by
  refine ⟨by decide, rfl, by decide⟩

/-- Witness for C8: removing the absent child 0 from [1] raises
ValueError, and adding appends unconditionally. -/
theorem C8_witness :
    Layout.remove_widget [1] 0 = .error "ValueError" ∧
    Layout.add_widget [1] 0 = [1] ++ [0] :=
  C8_child_structure [1] 0 (by decide)

/-- C9.  Focus transitions are idempotent at the event level: focus() on
an already-focused widget keeps on_focus true and does not invoke
focus_event; unfocus() on an already-unfocused widget keeps on_focus
false and does not invoke unfocus_event. -/
theorem C9_focus_idempotent :
    Widget.focus true = (true, false) ∧ Widget.unfocus false = (false, false) := by
  constructor <;> rfl

theorem pyTake_succ_dropLast (l : List Char) (a : Int) (h0 : 0 ≤ a)
    (hlt : a + 1 ≤ (l.length : Int)) :
    (pyTake l (a + 1)).dropLast = pyTake l a := by
  unfold pyTake
  have h1 : (a + 1).toNat = a.toNat + 1 := by omega
  rw [h1, List.dropLast_eq_take, List.length_take, List.take_take]
  congr 1
  omega

theorem pyTake_len (l : List Char) : pyTake l (l.length : Int) = l := by
  simp [pyTake]

theorem pyDrop_len (l : List Char) : pyDrop l (l.length : Int) = [] := by
  simp [pyDrop]

/-- C6 (amended).  Insertion semantics of a text-input event while
focused: with a finalized selection over valid indices (normalized to
[a, b], a < b <= len), the text becomes text[:a] + s + text[b:], the
cursor lands at a + 1 (immediately after the FIRST inserted character,
not after the whole inserted string), and the selection state clears;
with no selection active, s is inserted at cursor_pos and the cursor
advances by exactly one position, not by the length of s. -/
theorem C6_insertion (measure : List Char → ℚ) (inputWidth : ℚ) (s : List Char)
    (st : TextInputState) :
    (st.sel_done = true → 0 ≤ st.sel_start → 0 ≤ st.sel_end →
      st.sel_start ≠ st.sel_end →
      max st.sel_start st.sel_end ≤ (st.text.length : Int) →
      (handleTextInput measure inputWidth s st).text
          = pyTake st.text (min st.sel_start st.sel_end) ++ s
            ++ pyDrop st.text (max st.sel_start st.sel_end) ∧
        (handleTextInput measure inputWidth s st).cursor_pos
          = min st.sel_start st.sel_end + 1 ∧
        (handleTextInput measure inputWidth s st).sel_on = false ∧
        (handleTextInput measure inputWidth s st).sel_done = false ∧
        (handleTextInput measure inputWidth s st).sel_start = -1 ∧
        (handleTextInput measure inputWidth s st).sel_end = -1) ∧
    (st.sel_done = false → st.sel_on = false →
      (handleTextInput measure inputWidth s st).text
          = pyTake st.text st.cursor_pos ++ s ++ pyDrop st.text st.cursor_pos ∧
        (handleTextInput measure inputWidth s st).cursor_pos = st.cursor_pos + 1) := by
  constructor
  · intro hdone hs0 he0 hne hblen
    have hmin : (if st.sel_start > st.sel_end then st.sel_end else st.sel_start)
        = min st.sel_start st.sel_end := by
      split_ifs <;> omega
    have hmax : (if st.sel_start > st.sel_end then st.sel_start else st.sel_end)
        = max st.sel_start st.sel_end := by
      split_ifs <;> omega
    have ha1 : min st.sel_start st.sel_end + 1 ≤ (st.text.length : Int) := by
      omega
    have hcl : ¬ (min st.sel_start st.sel_end + 1 < 0) := by omega
    simp only [handleTextInput, hdone, if_true, ite_true, hmin, hmax]
    rw [if_neg hcl]
    rw [pyTake_succ_dropLast st.text (min st.sel_start st.sel_end) (by omega) ha1]
    split_ifs <;> simp [unselect]
  · intro hdone hon
    simp only [handleTextInput, hdone, Bool.false_eq_true, if_false, ite_false, hon,
      Bool.not_false, if_true, ite_true]
    by_cases heq : st.cursor_pos = (st.text.length : Int)
    · rw [if_pos heq, heq, pyTake_len, pyDrop_len]
      split_ifs <;> simp
    · rw [if_neg heq]
      split_ifs <;> simp


/-- C6 as stated is false for multi-character input: inserting "ab" into
empty text at cursor 0 leaves the cursor at 1, not at 0 + len("ab") = 2;
TextInput.update advances cursor_pos by exactly 1 per TEXTINPUT event. -/
theorem C6_counterexample :
    (handleTextInput (fun _ => 0) 100 (['a', 'b'])
        ⟨[], 0, 0, false, false, false, -1, -1⟩).cursor_pos = 1 ∧
    ((1 : Int) ≠ 0 + ((['a', 'b'] : List Char).length : Int)) := by
  constructor
  · norm_num [handleTextInput, textWidthUpTo, pyTake, pyDrop]
  · decide

/-- Witness for C6: text "hello world" with finalized selection [0, 5],
typing "X" yields "X world" with the cursor at 1 and the selection
cleared. -/
theorem C6_witness :
    (handleTextInput (fun _ => 0) 100 (['X'])
        ⟨['h','e','l','l','o',' ','w','o','r','l','d'], 5, 0, true, false, true, 0, 5⟩).text
      = ['X', ' ', 'w', 'o', 'r', 'l', 'd'] ∧
    (handleTextInput (fun _ => 0) 100 (['X'])
        ⟨['h','e','l','l','o',' ','w','o','r','l','d'], 5, 0, true, false, true, 0, 5⟩).cursor_pos
      = 1 ∧
    (handleTextInput (fun _ => 0) 100 (['X'])
        ⟨['h','e','l','l','o',' ','w','o','r','l','d'], 5, 0, true, false, true, 0, 5⟩).sel_done
      = false := by
  have h := (C6_insertion (fun _ => 0) 100 (['X'])
    ⟨['h','e','l','l','o',' ','w','o','r','l','d'], 5, 0, true, false, true, 0, 5⟩).1
    rfl (by decide) (by decide) (by decide) (by decide)
  obtain ⟨ht, hc, hon, hdone, h1, h2⟩ := h
  refine ⟨?_, ?_, hdone⟩
  · rw [ht]
    decide
  · rw [hc]
    decide

end LucyUI
